import Mathlib

/-!
Shallow embedding of `src/evaluation_scripts/evaluate_odin.py`.

Modelling conventions:
* numpy / tensorflow floating-point values become exact rationals (`ℚ`);
* a 2-D array is a list of rows (`Mat`); a batch of a loaded dataset is the
  `(input, label, weight)` triple the loop header `for x, _, _ in ds` destructures;
* a Python exception surfacing from a call is `Option.none` (`np.vstack` on an
  empty list, sklearn length/label checks, the `[0]` indexing in `fpr95`);
* the two opaque library computations that a shallow embedding cannot express —
  reverse-mode autodiff `t.gradient(loss, x)` and the transcendental `np.exp` —
  are passed in as function parameters (`gradFn`, `e`); every theorem states
  explicitly which property of them it needs (e.g. `e` strictly positive);
* the model-preparation lines of `odin_results` (dataclass `replace` of
  `BATCH_SIZE`, `make_model`, `load_weights`, stripping the `pred` layer's
  activation, `compile`) are interactions with external collaborators (Keras,
  the `conf` module); the embedding starts from the prepared logits model,
  taken as the `model` parameter, and from the two already-loaded batched
  datasets. A `tf.data` dataset is re-iterable (each `for` starts afresh),
  so a loaded dataset is a plain list of batches here.
-/

namespace EvalOdin

/-- A 2-D numeric array: a list of rows. -/
abbrev Mat := List (List ℚ)

/-- One batch of a loaded dataset: the `(input, label, weight)` triple.
`x` has one row per example; `y` and `w` have one scalar per example. -/
structure Batch where
  x : Mat
  y : List ℚ
  w : List ℚ

/-- `tf.sign` on one scalar. -/
def sign (v : ℚ) : ℚ := if 0 < v then 1 else if v < 0 then -1 else 0

/-- `np.max(outputs, axis=1)` for one row. numpy raises on an empty row; no
model output here has zero columns, so the value at `[]` is immaterial. -/
def rowMax : List ℚ → ℚ
  | [] => 0
  | h :: t => t.foldl max h

/-- The last two lines of the ODIN loop body for one row: subtract the row
max, exponentiate with `e` (the abstracted `np.exp`), normalise by the row
sum of exponentials. -/
def softmaxRow (e : ℚ → ℚ) (row : List ℚ) : List ℚ :=
  let exps := (row.map (fun v => v - rowMax row)).map e
  exps.map (fun v => v / exps.sum)

/-- `np.vstack`: concatenates the rows of the blocks; raises `ValueError` on
an empty block list (modelled as `none`). numpy additionally requires equal
widths; every call site stacks score rows of the one model, so the widths
agree and that check is not modelled. -/
def vstack (ots : List Mat) : Option Mat :=
  match ots with
  | [] => none
  | _ => some ots.flatten

/-- The body of the `for x, _, _ in ds` loop of `ODIN` for one input batch
`x`.  `maxIndexTemp`, the temperature division under the tape and the
cross-entropy `loss` only feed the autodiff call `t.gradient(loss, x)`,
which is the opaque framework computation abstracted as `gradFn`; `tf.sign`
is then applied to it, the perturbed input `tempInputs = x - epsilon *
gradients` is re-scored by the model, divided by the temperature again and
pushed through the numerically-stable softmax. -/
def odinStep (model gradFn : Mat → Mat) (e : ℚ → ℚ) (temperature epsilon : ℚ)
    (x : Mat) : Mat :=
  let gradients := (gradFn x).map (fun r => r.map sign)
  let tempInputs :=
    x.zipWith (fun xr gr => xr.zipWith (fun xi gi => xi - epsilon * gi) gr) gradients
  let outputs := (model tempInputs).map (fun r => r.map (fun v => v / temperature))
  outputs.map (softmaxRow e)

/-- `ODIN(ds, model, temperature, epsilon)`: runs the loop body over every
batch, accumulating into `ots`, and finishes with `np.vstack(ots)`. -/
def ODIN (model gradFn : Mat → Mat) (e : ℚ → ℚ) (temperature epsilon : ℚ)
    (ds : List Batch) : Option Mat :=
  vstack (ds.map (fun b => odinStep model gradFn e temperature epsilon b.x))

/-- Number of positive examples scored at or above threshold `t` (the
cumulative true-positive count of the ROC computation). -/
def tpsAt (y : List Bool) (s : List ℚ) (t : ℚ) : ℕ :=
  ((s.zip y).filter (fun p => p.2 && decide (t ≤ p.1))).length

/-- Number of negative examples scored at or above threshold `t`. -/
def fpsAt (y : List Bool) (s : List ℚ) (t : ℚ) : ℕ :=
  ((s.zip y).filter (fun p => !p.2 && decide (t ≤ p.1))).length

/-- The thresholds of `sklearn.metrics.roc_curve`: the distinct score values
in decreasing order. -/
def rocThresholds (s : List ℚ) : List ℚ :=
  (List.insertionSort (fun a b => a ≤ b) s.dedup).reverse

/-- `sklearn.metrics.roc_curve(y_true, y_score)` as the `(fpr, tpr)` pair.
A `(0, 0)` point (threshold `inf`) is prepended; each later point divides
the cumulative counts at one threshold by the totals.  sklearn's default
`drop_intermediate` pruning only removes interior collinear points and is
not modelled.  When a class is absent sklearn produces `nan` rates (division
by zero); exact division by zero yields `0` here, and both values fail every
`≥ level` test identically. -/
def roc_curve (y : List Bool) (s : List ℚ) : List ℚ × List ℚ :=
  let P := (y.filter (fun b => b)).length
  let N := (y.filter (fun b => !b)).length
  (0 :: (rocThresholds s).map (fun t => (fpsAt y s t : ℚ) / (N : ℚ)),
   0 :: (rocThresholds s).map (fun t => (tpsAt y s t : ℚ) / (P : ℚ)))

/-- Index of the first element satisfying `p`:
`np.argwhere(...).ravel()[0]`, whose `[0]` raises `IndexError` (here
`none`) when nothing satisfies `p`. -/
def firstIdx (p : α → Bool) : List α → Option ℕ
  | [] => none
  | a :: l => if p a then some 0 else (firstIdx p l).map (fun n => n + 1)

/-- The computation of `fpr95` at an arbitrary TPR target `level`: the FPR
at the first ROC point whose TPR is at least `level`. -/
def fprAtLevel (level : ℚ) (y : List Bool) (s : List ℚ) : Option ℚ :=
  let c := roc_curve y s
  (firstIdx (fun v => decide (level ≤ v)) c.2).map (fun ix => c.1.getD ix 0)

/-- `fpr95(y_true, y_pred)`: the level is the literal `0.95` of the source. -/
def fpr95 (y : List Bool) (s : List ℚ) : Option ℚ := fprAtLevel (95 / 100) y s

/-- Contribution of one positive/negative score pair to the Mann–Whitney
statistic. -/
def pairScore (ps ns : ℚ) : ℚ := if ns < ps then 1 else if ps = ns then 1 / 2 else 0

/-- `sklearn.metrics.roc_auc_score(y_true, y_score)` via the Mann–Whitney
statistic (the value sklearn computes by trapezoidal integration of the full
ROC curve).  sklearn raises `ValueError` when only one class is present in
`y_true`; that is the `none` case. -/
def roc_auc_score (y : List Bool) (s : List ℚ) : Option ℚ :=
  let pos := ((s.zip y).filter (fun p => p.2)).map (fun p => p.1)
  let neg := ((s.zip y).filter (fun p => !p.2)).map (fun p => p.1)
  if pos = [] ∨ neg = [] then none
  else
    some ((pos.map (fun ps => (neg.map (fun ns => pairScore ps ns)).sum)).sum /
      ((pos.length : ℚ) * (neg.length : ℚ)))

/-- `sklearn.metrics.accuracy_score`: the fraction of agreeing positions;
sklearn raises `ValueError` on inconsistent lengths (`none`). -/
def accuracy_score (yt yp : List ℚ) : Option ℚ :=
  if yt.length = yp.length then
    some (((((yt.zip yp).filter (fun p => decide (p.1 = p.2))).length : ℚ)) / (yt.length : ℚ))
  else none

/-- `np.argmax` over one row: index of the first occurrence of the row
maximum. -/
def argmaxRow (row : List ℚ) : ℕ :=
  (List.range row.length).foldl (fun best i => if row.getD best 0 < row.getD i 0 then i else best) 0

/-- `np.percentile(l, q)` with the default linear interpolation: sort
ascending, index `h = (n-1)·q/100`, interpolate between the neighbouring
order statistics.  numpy raises on an empty input; the one call site feeds a
nonempty array. -/
def percentile (q : ℚ) (l : List ℚ) : ℚ :=
  let s := List.insertionSort (fun a b => a ≤ b) l
  let h : ℚ := ((s.length : ℚ) - 1) * q / 100
  let i : ℕ := (⌊h⌋).toNat
  let lower := s.getD i 0
  let upper := s.getD (i + 1) lower
  lower + (h - (i : ℚ)) * (upper - lower)

/-- `odin_results(ds, ood)` from the two loaded datasets and the prepared
logits model.  Each `←` is a call whose Python exception would abort the
whole evaluation; the one guarded call — `roc_auc_score` inside
`try/except ValueError` — keeps the sentinel `-123456789` via `getD`.  The
returned association list is the `result_collection` dict in insertion
order. -/
def odinResults (model gradFn : Mat → Mat) (e : ℚ → ℚ) (ds ood : List Batch) :
    Option (List (String × ℚ)) :=
  (ODIN model gradFn e 2 (3 / 10) ds).bind fun pred_ds =>
  (ODIN model gradFn e 2 (3 / 10) ood).bind fun pred_ood =>
  let y_true := (ds.map Batch.y).flatten
  (accuracy_score y_true (pred_ds.map (fun r => (argmaxRow r : ℚ)))).bind fun acc =>
  let class_error := 1 - acc
  let pred := pred_ood ++ pred_ds
  let ood_labels := List.replicate pred_ood.length (0 : ℚ) ++ List.replicate pred_ds.length (1 : ℚ)
  let threshold := percentile 5 (pred_ds.map rowMax)
  let all_pred := pred.map (fun row => if row.any (fun v => decide (threshold < v)) then (1 : ℚ) else 0)
  (accuracy_score ood_labels all_pred).bind fun acc2 =>
  let ood_error := 1 - acc2
  let p := pred.map rowMax
  (roc_auc_score (ood_labels.map (fun v => decide (v = 1))) p).bind fun ood_auc =>
  let erroneous := (y_true.zip (pred_ds.map (fun r => (argmaxRow r : ℚ)))).map (fun pr => decide (pr.1 ≠ pr.2))
  let anomaly := pred_ds.map rowMax
  let auc := (roc_auc_score erroneous anomaly).getD (-123456789)
  (fpr95 (ood_labels.map (fun v => decide (v = 1))) p).bind fun fpr =>
  some [("classification error", class_error),
        ("threshold_ood", threshold),
        ("OOD error", ood_error),
        ("OOD AUC", ood_auc),
        ("AUC anomaly score and misclassification", auc),
        ("FPR at 95% TPR", fpr)]

/-- The unperturbed temperature-scaled softmax scores of one input batch:
the model's raw scores divided by the temperature, softmax-normalised. -/
def unperturbedScores (model : Mat → Mat) (e : ℚ → ℚ) (temperature : ℚ) (x : Mat) : Mat :=
  ((model x).map (fun r => r.map (fun v => v / temperature))).map (softmaxRow e)

/-- A concrete stand-in for `np.exp` used to instantiate theorems: any
strictly positive function is admissible for them. -/
def cE : ℚ → ℚ := fun _ => 1

/-- A concrete two-class logits model: scores each example by its first
feature against a constant `0` for the second class. -/
def cModel : Mat → Mat := fun x => x.map (fun r => [r.headD 0, 0])

/-- A concrete input-gradient oracle (identically zero, the gradient of a
locally constant loss): its `tf.sign` vanishes, so perturbation is inert. -/
def cGrad : Mat → Mat := fun x => x.map (fun r => r.map (fun _ => 0))

/-- A concrete in-distribution dataset: one batch of two examples with
labels `0` and `1`. -/
def cDs : List Batch := [⟨[[1, 0], [2, 0]], [0, 1], [1, 1]⟩]

/-- A concrete out-of-distribution dataset: one batch of one example. -/
def cOod : List Batch := [⟨[[3, 0]], [0], [1]⟩]

/-- A concrete in-distribution dataset on which every model prediction is
correct, so the misclassification ROC input is single-class. -/
def cDsAllCorrect : List Batch := [⟨[[1, 0]], [0], [1]⟩]

/-! ## Helper lemmas -/

lemma sum_map_div (l : List ℚ) (c : ℚ) : (l.map (fun v => v / c)).sum = l.sum / c := by
  induction l with
  | nil => simp
  | cons a t ih => simp [ih, add_div]

lemma softmaxRow_sum (e : ℚ → ℚ) (hexp : ∀ v : ℚ, 0 < e v) (row : List ℚ)
    (hrow : row ≠ []) : (softmaxRow e row).sum = 1 := by
  unfold softmaxRow
  have hne : (row.map (fun v => v - rowMax row)).map e ≠ [] := by
    simp [List.map_eq_nil_iff, hrow]
  have hpos : 0 < ((row.map (fun v => v - rowMax row)).map e).sum := by
    refine List.sum_pos _ ?_ hne
    intro x hx
    rcases List.mem_map.mp hx with ⟨u, _, rfl⟩
    exact hexp u
  rw [sum_map_div, div_self hpos.ne']

lemma softmaxRow_nonneg (e : ℚ → ℚ) (hexp : ∀ v : ℚ, 0 < e v) (row : List ℚ) :
    ∀ v ∈ softmaxRow e row, 0 ≤ v := by
  intro v hv
  unfold softmaxRow at hv
  rcases List.mem_map.mp hv with ⟨w, hw, rfl⟩
  have hw0 : 0 ≤ w := by
    rcases List.mem_map.mp hw with ⟨u, _, rfl⟩
    exact (hexp u).le
  have hs : 0 ≤ ((row.map (fun v => v - rowMax row)).map e).sum := by
    refine List.sum_nonneg ?_
    intro x hx
    rcases List.mem_map.mp hx with ⟨u, _, rfl⟩
    exact (hexp u).le
  exact div_nonneg hw0 hs

lemma zipWith_sub_zero_mul : ∀ (l m : List ℚ), l.length ≤ m.length →
    List.zipWith (fun a b => a - 0 * b) l m = l := by
  intro l
  induction l with
  | nil => intro m _; simp
  | cons a t ih =>
    intro m hm
    cases m with
    | nil => simp at hm
    | cons b mt =>
      rw [List.zipWith_cons_cons, zero_mul, sub_zero]
      exact congrArg _ (ih mt (Nat.le_of_succ_le_succ hm))

lemma zipWith_rows_id : ∀ (x g : Mat), x.length ≤ g.length →
    (∀ i, i < x.length → (x.getD i []).length ≤ (g.getD i []).length) →
    List.zipWith (fun xr gr => List.zipWith (fun xi gi => xi - 0 * gi) xr gr) x g = x := by
  intro x
  induction x with
  | nil => intro g _ _; simp
  | cons xr xt ih =>
    intro g hlen hrow
    cases g with
    | nil => simp at hlen
    | cons gr gt =>
      simp only [List.zipWith_cons_cons, List.cons.injEq]
      constructor
      · exact zipWith_sub_zero_mul xr gr (by simpa using hrow 0 (Nat.succ_pos _))
      · refine ih gt (Nat.le_of_succ_le_succ hlen) ?_
        intro i hi
        simpa using hrow (i + 1) (Nat.succ_lt_succ hi)

lemma getD_map_length (f : List ℚ → List ℚ) (hf : ∀ r, (f r).length = r.length)
    (g : Mat) (i : ℕ) : ((g.map f).getD i []).length = (g.getD i []).length := by
  rcases Nat.lt_or_ge i g.length with h | h
  · rw [List.getD_eq_getElem _ _ (by simpa using h), List.getD_eq_getElem _ _ h,
      List.getElem_map]
    exact hf _
  · rw [List.getD_eq_getElem?_getD, List.getD_eq_getElem?_getD,
      List.getElem?_eq_none (by simpa using h), List.getElem?_eq_none h]

lemma firstIdx_eq_none {α : Type} (p : α → Bool) :
    ∀ l : List α, firstIdx p l = none ↔ ∀ a ∈ l, p a = false := by
  intro l
  induction l with
  | nil => simp [firstIdx]
  | cons a t ih =>
    by_cases hpa : p a
    · simp [firstIdx, hpa]
    · have hpa' : p a = false := Bool.eq_false_iff.mpr hpa
      simp [firstIdx, hpa', ih]

lemma firstIdx_some_spec {α : Type} (p : α → Bool) (d : α) :
    ∀ (l : List α) (i : ℕ), firstIdx p l = some i →
      i < l.length ∧ p (l.getD i d) = true ∧ ∀ j, j < i → p (l.getD j d) = false := by
  intro l
  induction l with
  | nil => intro i h; simp [firstIdx] at h
  | cons a t ih =>
    intro i h
    by_cases hpa : p a
    · simp only [firstIdx, hpa, if_true, Option.some.injEq] at h
      subst h
      exact ⟨Nat.succ_pos _, by simpa using hpa, fun j hj => absurd hj (Nat.not_lt_zero j)⟩
    · simp only [firstIdx, hpa, if_false] at h
      rcases Option.map_eq_some'.mp h with ⟨k, hk, rfl⟩
      obtain ⟨h1, h2, h3⟩ := ih k hk
      refine ⟨Nat.succ_lt_succ h1, by simpa using h2, ?_⟩
      intro j hj
      cases j with
      | zero =>
        rw [List.getD_cons_zero]
        exact Bool.eq_false_iff.mpr hpa
      | succ j' =>
        rw [List.getD_cons_succ]
        exact h3 j' (Nat.lt_of_succ_lt_succ hj)

lemma firstIdx_some_of_first {α : Type} (p : α → Bool) (d : α) :
    ∀ (l : List α) (i : ℕ), i < l.length → p (l.getD i d) = true →
      (∀ j, j < i → p (l.getD j d) = false) → firstIdx p l = some i := by
  intro l
  induction l with
  | nil => intro i h; simp at h
  | cons a t ih =>
    intro i hi hp hmin
    cases i with
    | zero =>
      simp only [List.getD_cons_zero] at hp
      simp [firstIdx, hp]
    | succ i' =>
      have hpa : p a = false := by simpa using hmin 0 (Nat.succ_pos _)
      simp only [firstIdx, hpa, if_false]
      rw [ih i' (Nat.lt_of_succ_lt_succ hi) (by simpa using hp)
        (fun j hj => by simpa using hmin (j + 1) (Nat.succ_lt_succ hj))]
      rfl

lemma firstIdx_le_firstIdx {α : Type} (p q : α → Bool) (d : α)
    (hpq : ∀ a, q a = true → p a = true) (l : List α) (i j : ℕ)
    (hi : firstIdx p l = some i) (hj : firstIdx q l = some j) : i ≤ j := by
  by_contra hlt
  push_neg at hlt
  obtain ⟨-, -, hmin⟩ := firstIdx_some_spec p d l i hi
  obtain ⟨-, hq, -⟩ := firstIdx_some_spec q d l j hj
  have := hmin j hlt
  rw [hpq _ hq] at this
  simp at this

lemma pairwise_getD_mono {l : List ℚ} (h : List.Pairwise (fun a b : ℚ => a ≤ b) l)
    {i j : ℕ} (hij : i ≤ j) (hj : j < l.length) : l.getD i 0 ≤ l.getD j 0 := by
  rcases Nat.eq_or_lt_of_le hij with rfl | hlt
  · exact le_refl _
  · have hi : i < l.length := Nat.lt_trans hlt hj
    rw [List.getD_eq_getElem _ _ hi, List.getD_eq_getElem _ _ hj]
    have := List.pairwise_iff_get.mp h ⟨i, hi⟩ ⟨j, hj⟩ hlt
    simpa using this

lemma fpsAt_antitone (y : List Bool) (s : List ℚ) {t t' : ℚ} (h : t' ≤ t) :
    fpsAt y s t ≤ fpsAt y s t' := by
  unfold fpsAt
  rw [← List.countP_eq_length_filter, ← List.countP_eq_length_filter]
  refine List.countP_mono_left ?_
  intro a _ ha
  rw [Bool.and_eq_true] at ha
  obtain ⟨h1, h2⟩ := ha
  rw [Bool.and_eq_true]
  refine ⟨h1, ?_⟩
  rw [decide_eq_true_eq] at h2 ⊢
  exact le_trans h h2

lemma rocThresholds_pairwise (s : List ℚ) :
    List.Pairwise (fun a b : ℚ => b ≤ a) (rocThresholds s) := by
  unfold rocThresholds
  rw [List.pairwise_reverse]
  exact List.sorted_insertionSort (fun a b : ℚ => a ≤ b) s.dedup

lemma fpr_pairwise (y : List Bool) (s : List ℚ) :
    List.Pairwise (fun a b : ℚ => a ≤ b) ((roc_curve y s).1) := by
  unfold roc_curve
  refine List.Pairwise.cons ?_ ?_
  · intro v hv
    rcases List.mem_map.mp hv with ⟨t, _, rfl⟩
    positivity
  · refine List.Pairwise.map _ ?_ (rocThresholds_pairwise s)
    intro a b hba
    exact div_le_div_of_nonneg_right
      (by exact_mod_cast fpsAt_antitone y s hba) (by positivity)

lemma roc_lengths (y : List Bool) (s : List ℚ) :
    ((roc_curve y s).1).length = ((roc_curve y s).2).length := by
  simp [roc_curve]

lemma odinStep_length (model gradFn : Mat → Mat) (e : ℚ → ℚ) (T ε : ℚ) (x : Mat)
    (hgrad : x.length ≤ (gradFn x).length)
    (hrows : ∀ z : Mat, (model z).length = z.length) :
    (odinStep model gradFn e T ε x).length = x.length := by
  unfold odinStep
  rw [List.length_map, List.length_map, hrows, List.length_zipWith, List.length_map]
  exact min_eq_left hgrad

/-! ## Claim theorems -/

/-- Claim C9: calling the scorer on a dataset yielding zero batches leaves
the accumulator `ots` empty, and `np.vstack([])` raises `ValueError`: the
scorer errors out instead of returning an empty confidence matrix. -/
theorem claim9_empty_dataset_error (model gradFn : Mat → Mat) (e : ℚ → ℚ)
    (temperature epsilon : ℚ) :
    ODIN model gradFn e temperature epsilon [] = none := rfl

/-- Claim C10: the scorer destructures each batch as `x, _, _` and never
reads the label or weight component: two datasets with the same input
tensors in the same batch order give identical confidence matrices. -/
theorem claim10_labels_weights_ignored (model gradFn : Mat → Mat) (e : ℚ → ℚ)
    (temperature epsilon : ℚ) (ds1 ds2 : List Batch)
    (h : ds1.map Batch.x = ds2.map Batch.x) :
    ODIN model gradFn e temperature epsilon ds1 =
      ODIN model gradFn e temperature epsilon ds2 := by
  have hmap : ∀ ds : List Batch,
      ds.map (fun b => odinStep model gradFn e temperature epsilon b.x) =
        (ds.map Batch.x).map (odinStep model gradFn e temperature epsilon) := by
    intro ds
    rw [List.map_map]
    rfl
  rw [ODIN, ODIN, hmap, hmap, h]

/-- Claim C10 witness: two one-batch datasets sharing inputs but with
different labels and weights score identically. -/
theorem claim10_labels_weights_ignored_witness :
    ODIN cModel cGrad cE 2 (3 / 10) [⟨[[1, 0]], [5], [7]⟩] =
      ODIN cModel cGrad cE 2 (3 / 10) [⟨[[1, 0]], [9], [0]⟩] :=
  claim10_labels_weights_ignored cModel cGrad cE 2 (3 / 10) _ _ rfl

/-- Claim C6: with `epsilon = 0` the FGSM step `x - epsilon * gradients`
returns `x` unchanged (whenever the gradient has the input's shape, as
`t.gradient` guarantees), so the scorer's output on every dataset is exactly
the unperturbed temperature-scaled softmax of the model's scores. -/
theorem claim6_epsilon_zero (model gradFn : Mat → Mat) (e : ℚ → ℚ)
    (temperature : ℚ) (ds : List Batch)
    (hshape : ∀ b ∈ ds, b.x.length ≤ (gradFn b.x).length ∧
      ∀ i, i < b.x.length → (b.x.getD i []).length ≤ ((gradFn b.x).getD i []).length) :
    ODIN model gradFn e temperature 0 ds =
      vstack (ds.map (fun b => unperturbedScores model e temperature b.x)) := by
  unfold ODIN
  congr 1
  apply List.map_congr_left
  intro b hb
  obtain ⟨h1, h2⟩ := hshape b hb
  unfold odinStep unperturbedScores
  have hx : List.zipWith (fun xr gr => List.zipWith (fun xi gi => xi - 0 * gi) xr gr)
      b.x ((gradFn b.x).map (fun r => r.map sign)) = b.x := by
    refine zipWith_rows_id b.x _ (by simpa using h1) ?_
    intro i hi
    rw [getD_map_length (fun r => r.map sign) (fun r => List.length_map r sign) (gradFn b.x) i]
    exact h2 i hi
  dsimp only
  rw [hx]

/-- Claim C6 witness: a concrete run with `epsilon = 0` equals the
unperturbed temperature-scaled softmax scores. -/
theorem claim6_epsilon_zero_witness :
    ODIN cModel cGrad cE 2 0 cDs =
      vstack (cDs.map (fun b => unperturbedScores cModel cE 2 b.x)) :=
  claim6_epsilon_zero cModel cGrad cE 2 cDs (by decide)

/-- Claim C7: whenever the scorer succeeds (and the model emits one
nonempty score row per input example, the gradient has at least the input's
row count, and the exponential is positive as `np.exp` is), the confidence
matrix has one row per consumed example and every row is entrywise
non-negative with sum exactly 1 — exact arithmetic realises the 1e-5
floating-point tolerance of the specification as exact equality. -/
theorem claim7_confidence_matrix_invariants (model gradFn : Mat → Mat) (e : ℚ → ℚ)
    (temperature epsilon : ℚ) (ds : List Batch) (m : Mat)
    (hgrad : ∀ x : Mat, x.length ≤ (gradFn x).length)
    (hrows : ∀ x : Mat, (model x).length = x.length)
    (hwidth : ∀ x : Mat, ∀ r ∈ model x, r ≠ [])
    (hexp : ∀ v : ℚ, 0 < e v)
    (h : ODIN model gradFn e temperature epsilon ds = some m) :
    m.length = (ds.map (fun b => b.x.length)).sum ∧
      ∀ row ∈ m, (∀ v ∈ row, 0 ≤ v) ∧ row.sum = 1 := by
  have hm : m = (ds.map (fun b => odinStep model gradFn e temperature epsilon b.x)).flatten := by
    unfold ODIN vstack at h
    split at h
    · exact absurd h (by simp)
    · exact (Option.some.inj h).symm
  constructor
  · rw [hm, List.length_flatten, List.map_map]
    congr 1
    apply List.map_congr_left
    intro b _
    exact odinStep_length model gradFn e temperature epsilon b.x (hgrad b.x) hrows
  · intro row hrow
    rw [hm] at hrow
    rcases List.mem_flatten.mp hrow with ⟨bo, hbo, hrowbo⟩
    rcases List.mem_map.mp hbo with ⟨b, _, rfl⟩
    unfold odinStep at hrowbo
    rcases List.mem_map.mp hrowbo with ⟨orow, horow, rfl⟩
    rcases List.mem_map.mp horow with ⟨mr, hmr, rfl⟩
    have hne : mr.map (fun v => v / temperature) ≠ [] := by
      simp only [ne_eq, List.map_eq_nil_iff]
      exact hwidth _ _ hmr
    exact ⟨softmaxRow_nonneg e hexp _, softmaxRow_sum e hexp _ hne⟩

/-- Claim C7 witness: on the concrete dataset the scorer returns two rows
(one per example of the single batch), each non-negative and summing to 1. -/
theorem claim7_confidence_matrix_invariants_witness :
    ([[(1 : ℚ) / 2, 1 / 2], [1 / 2, 1 / 2]] : Mat).length =
        (cDs.map (fun b => b.x.length)).sum ∧
      ∀ row ∈ ([[(1 : ℚ) / 2, 1 / 2], [1 / 2, 1 / 2]] : Mat),
        (∀ v ∈ row, 0 ≤ v) ∧ row.sum = 1 :=
  claim7_confidence_matrix_invariants cModel cGrad cE 2 (3 / 10) cDs _
    (fun x => le_of_eq (List.length_map x _).symm)
    (fun x => List.length_map x _)
    (fun x r hr => by
      rcases List.mem_map.mp hr with ⟨a, _, rfl⟩
      simp)
    (fun v => one_pos)
    (by norm_num [ODIN, odinStep, vstack, softmaxRow, rowMax, sign, cModel, cGrad, cE, cDs])

/-- Claim C3: `fpr95` returns the FPR at the first ROC point (in the index
order the ROC computation produces) whose TPR is at least `0.95`, and when
no point reaches `0.95` the `[0]` indexing errors out (`none`) rather than
returning a fallback. -/
theorem claim3_fpr95_first_crossing (y : List Bool) (s : List ℚ) :
    ((∀ i, i < ((roc_curve y s).2).length → ((roc_curve y s).2).getD i 0 < 95 / 100) →
      fpr95 y s = none) ∧
    (∀ i, i < ((roc_curve y s).2).length → 95 / 100 ≤ ((roc_curve y s).2).getD i 0 →
      (∀ j, j < i → ((roc_curve y s).2).getD j 0 < 95 / 100) →
      fpr95 y s = some (((roc_curve y s).1).getD i 0)) := by
  constructor
  · intro hall
    unfold fpr95 fprAtLevel
    dsimp only
    have hnone : firstIdx (fun v => decide (95 / 100 ≤ v)) ((roc_curve y s).2) = none := by
      rw [firstIdx_eq_none]
      intro v hv
      rcases List.mem_iff_get.mp hv with ⟨⟨n, hn⟩, rfl⟩
      have hlt := hall n hn
      rw [List.getD_eq_getElem _ _ hn] at hlt
      rw [decide_eq_false_iff_not, not_le, List.get_eq_getElem]
      exact hlt
    rw [hnone]
    rfl
  · intro i hi hge hmin
    unfold fpr95 fprAtLevel
    dsimp only
    have hsome : firstIdx (fun v => decide (95 / 100 ≤ v)) ((roc_curve y s).2) = some i := by
      refine firstIdx_some_of_first _ 0 _ i hi ?_ ?_
      · rw [decide_eq_true_eq]
        exact hge
      · intro j hj
        rw [decide_eq_false_iff_not, not_le]
        exact hmin j hj
    rw [hsome]
    rfl

/-- Claim C3 witness: on labels `[false, true]` and scores `[0, 1]` the
first TPR value at least `0.95` sits at curve index 1, and `fpr95` returns
the FPR there. -/
theorem claim3_fpr95_first_crossing_witness :
    fpr95 [false, true] [0, 1] =
      some (((roc_curve [false, true] [0, 1]).1).getD 1 0) := by
  refine (claim3_fpr95_first_crossing [false, true] [0, 1]).2 1 ?_ ?_ ?_
  · norm_num [roc_curve, rocThresholds, List.insertionSort, List.orderedInsert, List.dedup]
  · norm_num [roc_curve, rocThresholds, List.insertionSort, List.orderedInsert, List.dedup,
      tpsAt, fpsAt, List.filter]
  · intro j hj
    have hj0 : j = 0 := by omega
    subst hj0
    norm_num [roc_curve, rocThresholds, List.insertionSort, List.orderedInsert, List.dedup]

/-- Claim C8: the computation underlying `fpr95`, generalised over its TPR
target, is monotone non-decreasing in that target: whenever both targets
are attained, raising the target cannot lower the reported FPR. -/
theorem claim8_fpr_monotone_in_level (t1 t2 : ℚ) (y : List Bool) (s : List ℚ)
    (a b : ℚ) (ht : t1 ≤ t2) (h1 : fprAtLevel t1 y s = some a)
    (h2 : fprAtLevel t2 y s = some b) : a ≤ b := by
  unfold fprAtLevel at h1 h2
  dsimp only at h1 h2
  rcases Option.map_eq_some'.mp h1 with ⟨i1, hi1, rfl⟩
  rcases Option.map_eq_some'.mp h2 with ⟨i2, hi2, rfl⟩
  have hle : i1 ≤ i2 := by
    refine firstIdx_le_firstIdx _ _ 0 ?_ _ _ _ hi1 hi2
    intro v hv
    rw [decide_eq_true_eq] at hv ⊢
    exact le_trans ht hv
  have hi2len : i2 < ((roc_curve y s).2).length := (firstIdx_some_spec _ 0 _ _ hi2).1
  refine pairwise_getD_mono (fpr_pairwise y s) hle ?_
  rw [roc_lengths y s]
  exact hi2len

/-- Claim C8 witness: on labels `[true, false, true]` and scores
`[3, 2, 1]`, the target `1/2` is met at FPR `0`, the higher target `3/4`
only at FPR `1`, and the theorem yields `0 ≤ 1`. -/
theorem claim8_fpr_monotone_in_level_witness : (0 : ℚ) ≤ 1 :=
  claim8_fpr_monotone_in_level (1 / 2) (3 / 4) [true, false, true] [3, 2, 1] 0 1
    (by norm_num)
    (by norm_num [fprAtLevel, roc_curve, rocThresholds, List.insertionSort,
      List.orderedInsert, List.dedup, tpsAt, fpsAt, List.filter, firstIdx])
    (by norm_num [fprAtLevel, roc_curve, rocThresholds, List.insertionSort,
      List.orderedInsert, List.dedup, tpsAt, fpsAt, List.filter, firstIdx])

lemma odinResults_success (model gradFn : Mat → Mat) (e : ℚ → ℚ) (ds ood : List Batch)
    (r : List (String × ℚ)) (h : odinResults model gradFn e ds ood = some r) :
    ∃ pred_ds pred_ood a acc2 u f,
      ODIN model gradFn e 2 (3 / 10) ds = some pred_ds ∧
      ODIN model gradFn e 2 (3 / 10) ood = some pred_ood ∧
      accuracy_score ((ds.map Batch.y).flatten)
        (pred_ds.map (fun row => (argmaxRow row : ℚ))) = some a ∧
      accuracy_score
        (List.replicate pred_ood.length (0 : ℚ) ++ List.replicate pred_ds.length (1 : ℚ))
        ((pred_ood ++ pred_ds).map (fun row =>
          if row.any (fun v => decide (percentile 5 (pred_ds.map rowMax) < v)) then (1 : ℚ)
          else 0)) = some acc2 ∧
      roc_auc_score
        ((List.replicate pred_ood.length (0 : ℚ) ++ List.replicate pred_ds.length (1 : ℚ)).map
          (fun v => decide (v = 1)))
        ((pred_ood ++ pred_ds).map rowMax) = some u ∧
      fpr95
        ((List.replicate pred_ood.length (0 : ℚ) ++ List.replicate pred_ds.length (1 : ℚ)).map
          (fun v => decide (v = 1)))
        ((pred_ood ++ pred_ds).map rowMax) = some f ∧
      r = [("classification error", 1 - a),
           ("threshold_ood", percentile 5 (pred_ds.map rowMax)),
           ("OOD error", 1 - acc2),
           ("OOD AUC", u),
           ("AUC anomaly score and misclassification",
             (roc_auc_score
               ((((ds.map Batch.y).flatten).zip
                 (pred_ds.map (fun row => (argmaxRow row : ℚ)))).map
                   (fun pr => decide (pr.1 ≠ pr.2)))
               (pred_ds.map rowMax)).getD (-123456789)),
           ("FPR at 95% TPR", f)] := by
  unfold odinResults at h
  simp only [Option.bind_eq_some, Option.some.injEq] at h
  obtain ⟨pred_ds, hds, h⟩ := h
  obtain ⟨pred_ood, hood, h⟩ := h
  obtain ⟨a, ha, h⟩ := h
  obtain ⟨acc2, hacc2, h⟩ := h
  obtain ⟨u, hu, h⟩ := h
  obtain ⟨f, hf, h⟩ := h
  exact ⟨pred_ds, pred_ood, a, acc2, u, f, hds, hood, ha, hacc2, hu, hf, h.symm⟩

lemma eval_ODIN_cDs :
    ODIN cModel cGrad cE 2 (3 / 10) cDs = some [[1 / 2, 1 / 2], [1 / 2, 1 / 2]] := by
  norm_num [ODIN, odinStep, vstack, softmaxRow, rowMax, sign, cModel, cGrad, cE, cDs]

lemma eval_ODIN_cOod :
    ODIN cModel cGrad cE 2 (3 / 10) cOod = some [[1 / 2, 1 / 2]] := by
  norm_num [ODIN, odinStep, vstack, softmaxRow, rowMax, sign, cModel, cGrad, cE, cOod]

lemma eval_ODIN_cDsAllCorrect :
    ODIN cModel cGrad cE 2 (3 / 10) cDsAllCorrect = some [[1 / 2, 1 / 2]] := by
  norm_num [ODIN, odinStep, vstack, softmaxRow, rowMax, sign, cModel, cGrad, cE,
    cDsAllCorrect]

lemma eval_odinResults_cDs_cOod :
    odinResults cModel cGrad cE cDs cOod =
      some [("classification error", 1 / 2), ("threshold_ood", 1 / 2), ("OOD error", 2 / 3),
        ("OOD AUC", 1 / 2), ("AUC anomaly score and misclassification", 1 / 2),
        ("FPR at 95% TPR", 1)] := by
  rw [odinResults, eval_ODIN_cDs, Option.some_bind, eval_ODIN_cOod, Option.some_bind]
  norm_num [cDs, accuracy_score, argmaxRow, percentile, roc_auc_score, pairScore,
    fpr95, fprAtLevel, roc_curve, rocThresholds, tpsAt, fpsAt, firstIdx, rowMax,
    List.insertionSort, List.orderedInsert, List.dedup, List.filter, List.range_succ,
    List.getD, Option.some_bind]
  simp

/-- Claim C1 (counterexample): the claim says a successful run returns
exactly the five named keys; on this concrete successful run the result has
six keys, the extra one being `threshold_ood` (stored by the line
`result_collection['threshold_ood'] = threshold`). -/
theorem claim1_counterexample :
    Option.map (fun r => r.map Prod.fst) (odinResults cModel cGrad cE cDs cOod) ≠
      some ["classification error", "OOD error", "OOD AUC",
        "AUC anomaly score and misclassification", "FPR at 95% TPR"] ∧
    Option.map (fun r => r.map Prod.fst) (odinResults cModel cGrad cE cDs cOod) =
      some ["classification error", "threshold_ood", "OOD error", "OOD AUC",
        "AUC anomaly score and misclassification", "FPR at 95% TPR"] := by
  rw [eval_odinResults_cDs_cOod]
  constructor
  · intro hcontra
    exact absurd (Option.some.inj hcontra) (by decide)
  · rfl

/-- Claim C1 (amended): every successful run of `odin_results` returns a
mapping with exactly six entries: the five named ones plus `threshold_ood`,
in computation order. -/
theorem claim1_result_keys (model gradFn : Mat → Mat) (e : ℚ → ℚ) (ds ood : List Batch)
    (r : List (String × ℚ)) (h : odinResults model gradFn e ds ood = some r) :
    r.map Prod.fst = ["classification error", "threshold_ood", "OOD error", "OOD AUC",
      "AUC anomaly score and misclassification", "FPR at 95% TPR"] := by
  obtain ⟨pred_ds, pred_ood, a, acc2, u, f, -, -, -, -, -, -, hr⟩ :=
    odinResults_success model gradFn e ds ood r h
  rw [hr]
  rfl

/-- Claim C1 witness: the key list of the concrete successful run. -/
theorem claim1_result_keys_witness :
    ([("classification error", (1 : ℚ) / 2), ("threshold_ood", 1 / 2), ("OOD error", 2 / 3),
      ("OOD AUC", 1 / 2), ("AUC anomaly score and misclassification", 1 / 2),
      ("FPR at 95% TPR", 1)] : List (String × ℚ)).map Prod.fst =
      ["classification error", "threshold_ood", "OOD error", "OOD AUC",
        "AUC anomaly score and misclassification", "FPR at 95% TPR"] :=
  claim1_result_keys cModel cGrad cE cDs cOod _ eval_odinResults_cDs_cOod

/-- Claim C2: on a successful run, the stored classification error is
`1 - accuracy` of `argmax(pred_ds)` against the concatenation of the label
field of every batch of the in-distribution dataset in iteration order —
the second pass over the loaded dataset re-iterates it from the start, as
the re-iterable `tf.data` dataset (modelled as a list of batches) allows. -/
theorem claim2_classification_error (model gradFn : Mat → Mat) (e : ℚ → ℚ)
    (ds ood : List Batch) (r : List (String × ℚ)) (pred_ds : Mat)
    (hds : ODIN model gradFn e 2 (3 / 10) ds = some pred_ds)
    (h : odinResults model gradFn e ds ood = some r) :
    ∃ a, accuracy_score ((ds.map Batch.y).flatten)
        (pred_ds.map (fun row => (argmaxRow row : ℚ))) = some a ∧
      r.lookup "classification error" = some (1 - a) := by
  obtain ⟨pd, pod, a, acc2, u, f, hds', hood, ha, -, -, -, hr⟩ :=
    odinResults_success model gradFn e ds ood r h
  rw [hds] at hds'
  cases Option.some.inj hds'
  refine ⟨a, ha, ?_⟩
  rw [hr]
  rfl

/-- Claim C2 witness: concrete run with labels `[0, 1]`, both examples
predicted as class 0, accuracy `1/2`, stored error `1/2`. -/
theorem claim2_classification_error_witness :
    ∃ a, accuracy_score ((cDs.map Batch.y).flatten)
        (([[1 / 2, 1 / 2], [1 / 2, 1 / 2]] : Mat).map (fun row => (argmaxRow row : ℚ))) =
          some a ∧
      ([("classification error", (1 : ℚ) / 2), ("threshold_ood", 1 / 2), ("OOD error", 2 / 3),
        ("OOD AUC", 1 / 2), ("AUC anomaly score and misclassification", 1 / 2),
        ("FPR at 95% TPR", 1)] : List (String × ℚ)).lookup "classification error" =
          some (1 - a) :=
  claim2_classification_error cModel cGrad cE cDs cOod _ _ eval_ODIN_cDs
    eval_odinResults_cDs_cOod

lemma accuracy_score_eq_of_length (yt yp : List ℚ) (hl : yt.length = yp.length) :
    accuracy_score yt yp =
      some (((((yt.zip yp).filter (fun p => decide (p.1 = p.2))).length : ℚ)) /
        (yt.length : ℚ)) := by
  unfold accuracy_score
  rw [if_pos hl]

lemma roc_auc_score_none_of_const (y : List Bool) (s : List ℚ)
    (h : (∀ b ∈ y, b = false) ∨ (∀ b ∈ y, b = true)) :
    roc_auc_score y s = none := by
  unfold roc_auc_score
  dsimp only
  rw [if_pos]
  rcases h with h | h
  · left
    have hfil : (s.zip y).filter (fun p => p.2) = [] := by
      rw [List.filter_eq_nil_iff]
      intro p hp
      obtain ⟨ps, pb⟩ := p
      have hb := (List.of_mem_zip hp).2
      rw [h pb hb]
      simp
    rw [hfil]
    rfl
  · right
    have hfil : (s.zip y).filter (fun p => !p.2) = [] := by
      rw [List.filter_eq_nil_iff]
      intro p hp
      obtain ⟨ps, pb⟩ := p
      have hb := (List.of_mem_zip hp).2
      rw [h pb hb]
      simp
    rw [hfil]
    rfl

/-- Claim C5: on a successful run, the combined matrix is `pred_ood`
stacked above `pred_ds` with domain labels `0` then `1` in that order, the
threshold is the 5th percentile of `pred_ds`'s per-row maxima (and is the
`threshold_ood` entry), a combined row is classified in-distribution
(prediction 1) iff some class probability strictly exceeds the threshold,
and the stored `OOD error` is 1 minus the accuracy of that binary
prediction against the domain labels. -/
theorem claim5_ood_error_pipeline (model gradFn : Mat → Mat) (e : ℚ → ℚ)
    (ds ood : List Batch) (r : List (String × ℚ)) (pred_ds pred_ood : Mat)
    (hds : ODIN model gradFn e 2 (3 / 10) ds = some pred_ds)
    (hood : ODIN model gradFn e 2 (3 / 10) ood = some pred_ood)
    (h : odinResults model gradFn e ds ood = some r) :
    r.lookup "threshold_ood" = some (percentile 5 (pred_ds.map rowMax)) ∧
    (∀ i, i < (pred_ood ++ pred_ds).length →
      (((pred_ood ++ pred_ds).map (fun row =>
          if row.any (fun v => decide (percentile 5 (pred_ds.map rowMax) < v)) then (1 : ℚ)
          else 0)).getD i 0 = 1 ↔
        ∃ v ∈ (pred_ood ++ pred_ds).getD i [], percentile 5 (pred_ds.map rowMax) < v)) ∧
    ∃ acc2,
      accuracy_score
        (List.replicate pred_ood.length (0 : ℚ) ++ List.replicate pred_ds.length (1 : ℚ))
        ((pred_ood ++ pred_ds).map (fun row =>
          if row.any (fun v => decide (percentile 5 (pred_ds.map rowMax) < v)) then (1 : ℚ)
          else 0)) = some acc2 ∧
      r.lookup "OOD error" = some (1 - acc2) := by
  obtain ⟨pd, pod, a, acc2, u, f, hds', hood', -, hacc2, -, -, hr⟩ :=
    odinResults_success model gradFn e ds ood r h
  rw [hds] at hds'
  cases Option.some.inj hds'
  rw [hood] at hood'
  cases Option.some.inj hood'
  refine ⟨by rw [hr]; rfl, ?_, acc2, hacc2, by rw [hr]; rfl⟩
  intro i hi
  rw [List.getD_eq_getElem _ _ (by rw [List.length_map]; exact hi), List.getElem_map,
    List.getD_eq_getElem _ _ hi]
  cases hb : (pred_ood ++ pred_ds)[i].any
      (fun v => decide (percentile 5 (pred_ds.map rowMax) < v)) with
  | true =>
    rw [List.any_eq_true] at hb
    simp only [decide_eq_true_eq] at hb
    simp [hb]
  | false =>
    have hnex : ¬ ∃ v ∈ (pred_ood ++ pred_ds)[i], percentile 5 (pred_ds.map rowMax) < v := by
      rintro ⟨v, hv, hlt⟩
      have hc : (pred_ood ++ pred_ds)[i].any
          (fun v => decide (percentile 5 (pred_ds.map rowMax) < v)) = true :=
        List.any_eq_true.mpr ⟨v, hv, by simpa using hlt⟩
      rw [hb] at hc
      simp at hc
    simp [hb, hnex]

/-- Claim C5 witness: the concrete run, with `pred_ood = [[1/2, 1/2]]`
stacked above `pred_ds = [[1/2, 1/2], [1/2, 1/2]]`. -/
theorem claim5_ood_error_pipeline_witness :
    (([("classification error", (1 : ℚ) / 2), ("threshold_ood", 1 / 2), ("OOD error", 2 / 3),
      ("OOD AUC", 1 / 2), ("AUC anomaly score and misclassification", 1 / 2),
      ("FPR at 95% TPR", 1)] : List (String × ℚ)).lookup "threshold_ood" =
        some (percentile 5 (([[1 / 2, 1 / 2], [1 / 2, 1 / 2]] : Mat).map rowMax))) ∧
    (∀ i, i < (([[1 / 2, 1 / 2]] : Mat) ++ [[1 / 2, 1 / 2], [1 / 2, 1 / 2]]).length →
      (((([[1 / 2, 1 / 2]] : Mat) ++ [[1 / 2, 1 / 2], [1 / 2, 1 / 2]]).map (fun (row : List ℚ) =>
          if row.any (fun v => decide
            (percentile 5 (([[1 / 2, 1 / 2], [1 / 2, 1 / 2]] : Mat).map rowMax) < v))
          then (1 : ℚ) else 0)).getD i 0 = 1 ↔
        ∃ v ∈ (([[1 / 2, 1 / 2]] : Mat) ++ [[1 / 2, 1 / 2], [1 / 2, 1 / 2]]).getD i [],
          percentile 5 (([[1 / 2, 1 / 2], [1 / 2, 1 / 2]] : Mat).map rowMax) < v)) ∧
    ∃ acc2,
      accuracy_score
        (List.replicate ([[1 / 2, 1 / 2]] : Mat).length (0 : ℚ) ++
          List.replicate ([[1 / 2, 1 / 2], [1 / 2, 1 / 2]] : Mat).length (1 : ℚ))
        ((([[1 / 2, 1 / 2]] : Mat) ++ [[1 / 2, 1 / 2], [1 / 2, 1 / 2]]).map (fun (row : List ℚ) =>
          if row.any (fun v => decide
            (percentile 5 (([[1 / 2, 1 / 2], [1 / 2, 1 / 2]] : Mat).map rowMax) < v))
          then (1 : ℚ) else 0)) = some acc2 ∧
      ([("classification error", (1 : ℚ) / 2), ("threshold_ood", 1 / 2), ("OOD error", 2 / 3),
        ("OOD AUC", 1 / 2), ("AUC anomaly score and misclassification", 1 / 2),
        ("FPR at 95% TPR", 1)] : List (String × ℚ)).lookup "OOD error" = some (1 - acc2) :=
  claim5_ood_error_pipeline cModel cGrad cE cDs cOod _ _ _ eval_ODIN_cDs eval_ODIN_cOod
    eval_odinResults_cDs_cOod

/-- Claim C4: when the misclassification-vs-anomaly-score ROC input is
degenerate — every in-distribution prediction correct, or every one wrong,
so the `erroneous_prediction` labels are single-class and
`roc_auc_score` raises `ValueError` — `odin_results` still succeeds (given
that the unrelated fallible steps succeed): the guarded `try/except` stores
the sentinel `-123456789` under `AUC anomaly score and misclassification`
and every other metric is still computed and stored. -/
theorem claim4_sentinel_on_degenerate_auc (model gradFn : Mat → Mat) (e : ℚ → ℚ)
    (ds ood : List Batch) (pred_ds pred_ood : Mat) (a u f : ℚ)
    (hds : ODIN model gradFn e 2 (3 / 10) ds = some pred_ds)
    (hood : ODIN model gradFn e 2 (3 / 10) ood = some pred_ood)
    (ha : accuracy_score ((ds.map Batch.y).flatten)
      (pred_ds.map (fun row => (argmaxRow row : ℚ))) = some a)
    (hu : roc_auc_score
      ((List.replicate pred_ood.length (0 : ℚ) ++ List.replicate pred_ds.length (1 : ℚ)).map
        (fun v => decide (v = 1)))
      ((pred_ood ++ pred_ds).map rowMax) = some u)
    (hf : fpr95
      ((List.replicate pred_ood.length (0 : ℚ) ++ List.replicate pred_ds.length (1 : ℚ)).map
        (fun v => decide (v = 1)))
      ((pred_ood ++ pred_ds).map rowMax) = some f)
    (hdeg : (∀ b ∈ (((ds.map Batch.y).flatten).zip
          (pred_ds.map (fun row => (argmaxRow row : ℚ)))).map (fun pr => decide (pr.1 ≠ pr.2)),
        b = false) ∨
      (∀ b ∈ (((ds.map Batch.y).flatten).zip
          (pred_ds.map (fun row => (argmaxRow row : ℚ)))).map (fun pr => decide (pr.1 ≠ pr.2)),
        b = true)) :
    ∃ r, odinResults model gradFn e ds ood = some r ∧
      r.lookup "AUC anomaly score and misclassification" = some (-123456789) ∧
      r.map Prod.fst = ["classification error", "threshold_ood", "OOD error", "OOD AUC",
        "AUC anomaly score and misclassification", "FPR at 95% TPR"] := by
  obtain ⟨acc2, hacc2⟩ : ∃ v,
      accuracy_score
        (List.replicate pred_ood.length (0 : ℚ) ++ List.replicate pred_ds.length (1 : ℚ))
        ((pred_ood ++ pred_ds).map (fun row =>
          if row.any (fun v => decide (percentile 5 (pred_ds.map rowMax) < v)) then (1 : ℚ)
          else 0)) = some v :=
    ⟨_, accuracy_score_eq_of_length _ _ (by simp)⟩
  have hnone := roc_auc_score_none_of_const _ (pred_ds.map rowMax) hdeg
  refine ⟨[("classification error", 1 - a),
    ("threshold_ood", percentile 5 (pred_ds.map rowMax)),
    ("OOD error", 1 - acc2),
    ("OOD AUC", u),
    ("AUC anomaly score and misclassification", -123456789),
    ("FPR at 95% TPR", f)], ?_, rfl, rfl⟩
  unfold odinResults
  rw [hds, Option.some_bind, hood, Option.some_bind]
  try dsimp only
  rw [ha, Option.some_bind]
  try dsimp only
  rw [hacc2, Option.some_bind]
  try dsimp only
  rw [hu, Option.some_bind]
  try dsimp only
  rw [hnone, hf, Option.some_bind]
  rfl

/-- Claim C4 witness: with the all-correct concrete dataset the degenerate
branch is taken and the sentinel is stored while the run still returns all
six entries. -/
theorem claim4_sentinel_on_degenerate_auc_witness :
    ∃ r, odinResults cModel cGrad cE cDsAllCorrect cOod = some r ∧
      r.lookup "AUC anomaly score and misclassification" = some (-123456789) ∧
      r.map Prod.fst = ["classification error", "threshold_ood", "OOD error", "OOD AUC",
        "AUC anomaly score and misclassification", "FPR at 95% TPR"] :=
  claim4_sentinel_on_degenerate_auc cModel cGrad cE cDsAllCorrect cOod
    [[1 / 2, 1 / 2]] [[1 / 2, 1 / 2]] 1 (1 / 2) 1
    eval_ODIN_cDsAllCorrect
    eval_ODIN_cOod
    (by norm_num [cDsAllCorrect, accuracy_score, argmaxRow, List.range_succ, List.getD,
      List.filter])
    (by norm_num [roc_auc_score, pairScore, rowMax, List.filter])
    (by norm_num [fpr95, fprAtLevel, roc_curve, rocThresholds, tpsAt, fpsAt, firstIdx,
      rowMax, List.insertionSort, List.orderedInsert, List.dedup, List.filter])
    (Or.inl (by
      intro b hb
      norm_num [cDsAllCorrect, argmaxRow, List.range_succ, List.getD] at hb
      simpa using hb))

end EvalOdin
